import Mathlib

/-!
Shallow embedding of the LLM-Ops generator core
(`core/lock_backend.py`, `core/state_backend.py`, `deploy/repo_manager.py`,
`core/engine.py`) and proofs of the specified properties.

Conventions: machine time is modelled as `Nat` seconds (the Python code uses
`int(time.time())` for the conditional-write comparison); Python exceptions are
modelled as `Except`; external collaborators (DynamoDB, S3, the GitHub API,
the local filesystem) are modelled by their capability contracts, with the
behaviour left as an oracle parameter where the claim quantifies over it.
-/

namespace LlmOps

/-! ## Lock backend (`core/lock_backend.py`, class `DynamoLock`) -/

/-- A lease record in the DynamoDB lock table:
`Item={"LockID": lock_id, "ExpiresAt": expires_at}`. -/
structure Lease where
  lockId : String
  expiresAt : Nat
deriving DecidableEq, Repr

/-- The lock table restricted to the single `lock_id` the class uses:
either no record exists, or one lease record is stored. -/
abbrev LockTable := Option Lease

/-- Result of the conditional `put_item`. `condFailed` is DynamoDB's
`ConditionalCheckFailedException`. -/
inductive PutResult where
  | ok (newTable : LockTable)
  | condFailed
deriving DecidableEq, Repr

/-- DynamoDB semantics of the conditional write issued by `DynamoLock.acquire`:
`ConditionExpression="attribute_not_exists(LockID) OR ExpiresAt < :now"` with
`:now = int(time.time())`; on success the item is replaced by
`{LockID: lock_id, ExpiresAt: expires_at}`. -/
def condPut (table : LockTable) (lockId : String) (now expiresAt : Nat) : PutResult :=
  match table with
  | none => .ok (some ⟨lockId, expiresAt⟩)
  | some l => if l.expiresAt < now then .ok (some ⟨lockId, expiresAt⟩) else .condFailed

/-- Observable events of one `acquire` call: a conditional-write attempt at a
given time, and a `time.sleep(poll_interval)`. -/
inductive LockEvent where
  | attempt (t : Nat)
  | sleep (d : Nat)
deriving DecidableEq, Repr

/-- Result of `DynamoLock.acquire`: the returned boolean, the lock table after
the call, the time when the call returned, and the trace of events. -/
structure AcquireResult where
  acquired : Bool
  table : LockTable
  finishTime : Nat
  trace : List LockEvent
deriving DecidableEq, Repr

/-- The retry loop of `DynamoLock.acquire` (`core/lock_backend.py` lines
46-75).  `deadline = time.time() + wait_seconds` is fixed before the loop; at
each iteration the conditional write is attempted with
`expires_at = now + ttl_seconds`; on `ConditionalCheckFailedException` the
call returns `False` if `time.time() >= deadline`, otherwise sleeps
`poll_interval` and retries.  Time advances only by sleeping (the model's
clock), so a positive `poll` is required for termination. -/
def acquireLoop (lockId : String) (ttl deadline poll : Nat) (hpoll : 0 < poll)
    (table : LockTable) (t : Nat) : AcquireResult :=
  let now := t
  let expiresAt := now + ttl
  match condPut table lockId now expiresAt with
  | .ok table' => ⟨true, table', t, [.attempt t]⟩
  | .condFailed =>
    if _h : deadline ≤ t then
      ⟨false, table, t, [.attempt t]⟩
    else
      let rest := acquireLoop lockId ttl deadline poll hpoll table (t + poll)
      ⟨rest.acquired, rest.table, rest.finishTime, .attempt t :: .sleep poll :: rest.trace⟩
termination_by deadline - t
decreasing_by omega

/-- Model of `DynamoLock.acquire(wait_seconds, poll_interval)` called at time `t0`:
the deadline is `t0 + wait_seconds`. -/
def acquire (lockId : String) (ttl waitSeconds poll : Nat) (hpoll : 0 < poll)
    (table : LockTable) (t0 : Nat) : AcquireResult :=
  acquireLoop lockId ttl (t0 + waitSeconds) poll hpoll table t0

/-- Result of the backing store's `delete_item`: success with the new table, or
an arbitrary backend fault. -/
inductive DeleteResult where
  | ok (newTable : LockTable)
  | err (msg : String)
deriving DecidableEq, Repr

/-- Honest DynamoDB semantics of `delete_item(Key={"LockID": lock_id})`:
deleting an item, present or not, succeeds and leaves no record. -/
def dynamoDelete (_table : LockTable) : DeleteResult := .ok none

/-- Model of `DynamoLock.release` (`core/lock_backend.py` lines 77-82), over an
arbitrary behaviour `del1` of the backing store's delete: the `try/except
Exception` wrapper means the method itself never raises; a fault is logged
(returned as the second component) and the table is left as the fault left it.
The outer `Except` layer records whether the call raises to its caller. -/
def releaseE (del1 : LockTable → DeleteResult) (table : LockTable) :
    Except String (LockTable × Option String) :=
  match del1 table with
  | .ok table' => .ok (table', none)
  | .err msg => .ok (table, some msg)

/-! ## Properties of the lock -/

/-- A contention trace is an alternation in which every rejected attempt is
followed by a `sleep d` before the next attempt, and the final attempt is
followed by nothing. -/
def WellPaced (d : Nat) : List LockEvent → Prop
  | [.attempt _] => True
  | .attempt _ :: .sleep d' :: rest => d' = d ∧ WellPaced d rest
  | _ => False

/-! ## State backend (`core/state_backend.py`) -/

/-- JSON values, as produced by `json.loads`. -/
inductive Json where
  | null
  | bool (b : Bool)
  | num (n : Int)
  | str (s : String)
  | arr (xs : List Json)
  | obj (fields : List (String × Json))

/-- Test `isinstance(state, dict)`. -/
def Json.isObj : Json → Bool
  | .obj _ => true
  | _ => false

/-- Outcome of `s3.get_object` for the state key: a body, or a `ClientError`
with the given error code. -/
inductive S3Get where
  | ok (body : String)
  | clientError (code : String)
deriving DecidableEq, Repr

/-- Model of `S3StateBackend.load_state` (`core/state_backend.py` lines 33-48) over the
store outcome `get` and a JSON parser `parse` standing for `json.loads`
(`none` = the blob does not parse, i.e. `json.loads` raises).  The body is
replaced by `"{}"` when empty (`body ... or "{}"`); a parse failure is NOT
caught — only `ClientError` is, and only for the codes `NoSuchKey` and
`NoSuchBucket`; a parsed non-dict is reset to the empty document. -/
def s3LoadState (get : S3Get) (parse : String → Option Json) : Except String Json :=
  match get with
  | .ok body =>
    let body' := if body = "" then ("\x7b\x7d") else body
    match parse body' with
    | none => .error ("json.loads raised (not a ClientError, so uncaught)")
    | some v => if v.isObj then .ok v else .ok (Json.obj [])
  | .clientError code =>
    if code = "NoSuchKey" ∨ code = "NoSuchBucket" then .ok (Json.obj [])
    else .error code

/-- Model of `LocalStateBackend.load_state` (`core/state_backend.py` lines 72-80) over
the file's content (`none` = the file does not exist) and a JSON parser.
Here the parse failure IS caught (`except Exception: return {}`); note no
dict check is performed in this variant. -/
def localLoadState (stored : Option String) (parse : String → Option Json) :
    Except String Json :=
  match stored with
  | none => .ok (Json.obj [])
  | some body =>
    match parse body with
    | none => .ok (Json.obj [])
    | some v => .ok v

/-- A parser fixing `json.loads` on the two strings the counterexample uses:
`"{}"` is the empty JSON object and `"not json"` does not parse. -/
def tinyParse (s : String) : Option Json :=
  if s = "\x7b\x7d" then some (Json.obj []) else none

/-! ## Repo sync engine: traversal and exclusion
(`deploy/repo_manager.py`, `EXCLUDE_PATH_FRAGMENTS` and
`RepoManager.upload_template_folder`) -/

/-- The set `EXCLUDE_PATH_FRAGMENTS` (`deploy/repo_manager.py` lines 14-21). -/
def EXCLUDE_PATH_FRAGMENTS : List String :=
  ["__pycache__", ".pytest_cache", ".git", ".DS_Store", ".github/workflows/generator.yml"]

/-- The check `any(part in EXCLUDE_PATH_FRAGMENTS for part in parts)` where `parts` is
`[p for p in rel.split("/") if p]`.  Paths are modelled directly as their
segment lists (each segment nonempty and slash-free), so the split-and-filter
is the identity and the check is exact membership of each segment. -/
def segExcluded (parts : List String) : Bool :=
  parts.any fun p => EXCLUDE_PATH_FRAGMENTS.contains p

/-- A local directory tree: the files and the named subdirectories of each
directory, listed in the order `os.walk` happens to enumerate them. -/
inductive FsTree where
  | node (files : List String) (dirs : List (String × FsTree))

/-- The segments of `os.path.join(os.path.relpath(root, folder), d)`:
`os.path.relpath` of the top-level root is `"."`, which contributes a `"."`
segment for top-level directories (harmless, as `"."` is not excluded). -/
def dirCheckPath (pre : List String) (d : String) : List String :=
  (if pre.isEmpty then ["."] else pre) ++ [d]

mutual
/-- The traversal of `RepoManager.upload_template_folder` (lines 140-165):
the sync plan (the `discovered` list of repo-relative paths, as segment
lists) in traversal order — the current directory's non-excluded files first,
then the kept subdirectories recursively; a directory any of whose path
segments is excluded is pruned from descent, and a file any of whose path
segments is excluded is skipped. -/
def walkTree (pre : List String) : FsTree → List (List String)
  | .node files dirs =>
    (files.filterMap fun f =>
        if segExcluded (pre ++ [f]) then none else some (pre ++ [f])) ++
      walkDirs pre dirs

/-- The `new_dirs` pruning loop (lines 143-151) fused with the recursive
descent `os.walk` performs into the kept directories. -/
def walkDirs (pre : List String) : List (String × FsTree) → List (List String)
  | [] => []
  | (d, sub) :: rest =>
    (if segExcluded (dirCheckPath pre d) then [] else walkTree (pre ++ [d]) sub) ++
      walkDirs pre rest
end

/-- One directory's contribution to the plan. -/
def walkDirStep (pre : List String) (p : String × FsTree) : List (List String) :=
  if segExcluded (dirCheckPath pre p.1) then [] else walkTree (pre ++ [p.1]) p.2

/-- The subdirectories of the local tree of the C7 scenario, in one fixed
order; the claim quantifies over every permutation of them. -/
def c7Dirs : List (String × FsTree) :=
  [("sub", .node ["b.yaml"] []),
   (".git", .node ["x"] []),
   ("__pycache__", .node ["y.pyc"] [])]

/-! ## Repo sync engine: per-file upload and idempotence
(`RepoManager.upload_file`, lines 101-130) -/

/-- A file stored in the remote repository: its version token (git blob sha)
and its content. -/
structure RemoteFile where
  sha : String
  content : String
deriving DecidableEq, Repr

/-- The remote contents endpoint's state: path ↦ stored file. -/
abbrev Remote := List (String × RemoteFile)

/-- Model of the contents GET endpoint: 200 with the stored file, or
404. -/
def lookupFile (repo : Remote) (path : String) : Option RemoteFile :=
  (repo.find? fun pr => pr.1 == path).map Prod.snd

def setFile (repo : Remote) (path : String) (f : RemoteFile) : Remote :=
  (path, f) :: repo.filter fun pr => pr.1 != path

/-- The version token the remote store assigns to freshly stored content —
a content hash in GitHub; modelled as an opaque non-empty tag. -/
def shaOf (content : String) : String := "sha-" ++ content

/-- Semantics of the contents PUT endpoint of the external API (spec §6 and the
GitHub contents contract): without a version token the write is a create and
fails if the file already exists; with a token it is an update and succeeds
exactly when the token matches the stored file's current sha. -/
def putFile (repo : Remote) (path content : String) (token : Option String) :
    Except String Remote :=
  match lookupFile repo path, token with
  | none, none => .ok (setFile repo path ⟨shaOf content, content⟩)
  | none, some _ => .error ("422: sha provided but file does not exist")
  | some _, none => .error ("422: file already exists, sha required for update")
  | some f, some s =>
    if s = f.sha then .ok (setFile repo path ⟨shaOf content, content⟩)
    else .error ("409: sha mismatch")

/-- The upload request `upload_file` sends: the path and the optional `sha`
field of the payload. -/
structure UploadReq where
  path : String
  token : Option String
deriving DecidableEq, Repr

/-- Model of `RepoManager.upload_file` (lines 101-130): GET the contents endpoint; on
200 take its `sha`; include it in the PUT payload only when truthy
(`if sha:` — a present-but-empty sha is omitted exactly like an absent one);
then PUT.  Returns the request sent and the PUT outcome (an error from
`_request` propagates to the caller). -/
def uploadFile (repo : Remote) (path content : String) :
    UploadReq × Except String Remote :=
  let sha? := (lookupFile repo path).map RemoteFile.sha
  let token := match sha? with
    | some s => if s = "" then none else some s
    | none => none
  (⟨path, token⟩, putFile repo path content token)

/-- One sync run over an unchanged plan: upload every file of the plan in
order (`upload_template_folder` lines 153-180, with the traversal already
flattened into the plan), threading the remote state and collecting the
requests sent; the first raised error aborts the run. -/
def syncRun : List (String × String) → Remote → Except String (Remote × List UploadReq)
  | [], repo => .ok (repo, [])
  | (p, c) :: rest, repo =>
    match uploadFile repo p c with
    | (_req, .error e) => .error e
    | (req, .ok repo') =>
      match syncRun rest repo' with
      | .error e => .error e
      | .ok (repoF, reqs) => .ok (repoF, req :: reqs)

/-- Every stored sha is non-empty (true of every repository the sync ever
produces, since the store only assigns `shaOf` tokens). -/
def goodRepo (repo : Remote) : Prop := ∀ pr ∈ repo, pr.2.sha ≠ ""

def hasPath (repo : Remote) (path : String) : Prop := (lookupFile repo path).isSome

/-! ## Repo sync engine: the PUT retry loop
(`RepoManager._request`, lines 62-72, and the loop in `upload_file`,
lines 124-130) -/

/-- An HTTP response from the GitHub API: status code, body, and whether the
lower-cased body contains `"rate limit"`. -/
structure HttpResp where
  status : Nat
  body : String
  rateLimitText : Bool
deriving DecidableEq, Repr

/-- Model of `RepoManager._request`: raises on a 403 whose body mentions the rate
limit, raises on every status >= 400, and otherwise returns the response. -/
def requestW (resp : HttpResp) : Except String HttpResp :=
  if resp.status = 403 ∧ resp.rateLimitText then
    .error ("GitHub API Rate Limit reached. Slow down or add delays.")
  else if 400 ≤ resp.status then
    .error ("GitHub API error " ++ toString resp.status ++ ": " ++ resp.body)
  else .ok resp

/-- The `for attempt in range(3)` PUT loop of `upload_file`: `responder n` is
the response the API gives to the n-th PUT (0-based); `remaining` counts the
loop iterations left, `last` the response bound by the previous iteration.
A raised `_request` error carries the number of PUT attempts performed when
it aborted the call; a normal return carries the response handed to the
caller and the attempts performed.  A `time.sleep(0.2)` separates loop
iterations (pure delay, no modelled effect). -/
def uploadPutLoop (responder : Nat → HttpResp) :
    Nat → Nat → Option HttpResp → Except (String × Nat) (HttpResp × Nat)
  | 0, attempt, last =>
    match last with
    | some r => .ok (r, attempt)
    | none => .error ("UnboundLocalError: resp", attempt)
  | remaining + 1, attempt, _last =>
    match requestW (responder attempt) with
    | .error e => .error (e, attempt + 1)
    | .ok resp =>
      if resp.status = 200 ∨ resp.status = 201 then .ok (resp, attempt + 1)
      else uploadPutLoop responder remaining (attempt + 1) (some resp)

/-- The PUT phase of `upload_file`: three loop iterations, no prior binding
of `resp`. -/
def uploadPut (responder : Nat → HttpResp) : Except (String × Nat) (HttpResp × Nat) :=
  uploadPutLoop responder 3 0 none

/-! ## Orchestrator (`core/engine.py`) -/

/-- One character of `re.sub(r"[^a-z0-9]+", "-", slug)` after `.lower()`:
anything outside `[a-z0-9]` becomes a dash.  Replacing characterwise and then
collapsing dash runs (the code's second `re.sub(r"-+", "-", ...)`) yields the
same string as replacing each non-alphanumeric run by a single dash and then
collapsing. -/
def slugChar (c : Char) : Char :=
  if ('a' ≤ c ∧ c ≤ 'z') ∨ ('0' ≤ c ∧ c ≤ '9') then c else '-'

/-- Model of `re.sub(r"-+", "-", slug)`: collapse every run of dashes to one dash. -/
def collapseDashes : List Char → List Char
  | [] => []
  | c :: rest =>
    match rest with
    | [] => [c]
    | d :: _ =>
      if c = '-' ∧ d = '-' then collapseDashes rest
      else c :: collapseDashes rest

/-- Model of `.strip("-")`, leading half. -/
def dropLeadingDashes : List Char → List Char
  | [] => []
  | c :: rest => if c = '-' then dropLeadingDashes rest else c :: rest

/-- Model of `.strip("-")`. -/
def stripDashes (l : List Char) : List Char :=
  ((dropLeadingDashes ((dropLeadingDashes l).reverse)).reverse)

/-- Model of `_slugify` (`core/engine.py` lines 16-23): strip whitespace, lowercase,
collapse non-alphanumeric runs to single dashes, strip dashes, and fall back
to `"llm-project"` when empty (`slug or "llm-project"`). -/
def slugify (name : String) : String :=
  let collapsed := collapseDashes ((name.trim.toLower).toList.map slugChar)
  let stripped := stripDashes collapsed
  if stripped.isEmpty then ("llm-project") else String.mk stripped

/-- Python's `x or y` for an optional string `x`: `None` and `""` are falsy. -/
def pyOrStr (x : Option String) (dflt : String) : String :=
  match x with
  | some s => if s = "" then dflt else s
  | none => dflt

/-- The derivation rule for a fresh repository name (engine line 69):
`f"Infoservices-{project_slug}-llm"`. -/
def derivedRepoName (projectName : String) : String :=
  "Infoservices-" ++ slugify projectName ++ "-llm"

/-- Engine line 69, `project_state.get("repo_name") or <derived>`: the
recorded name wins whenever it is truthy; the derivation rule is passed in
as `derived`. -/
def chooseRepoName (recorded : Option String) (derived : String) : String :=
  pyOrStr recorded derived

/-- The per-project record the engine keeps in
`state["projects"][project_name]`.  A field holds `none` when the key is
absent from the stored mapping. -/
structure ProjRecord where
  projectName : Option String := none
  repoName : Option String := none
  repoFullName : Option String := none
  repoHtmlUrl : Option String := none
  observabilityEnabled : Option Bool := none
deriving DecidableEq, Repr

/-- The state document as the engine reads it after
`state.setdefault("projects", {})`: the `projects` mapping, as an
association list (insertion order is irrelevant to every lookup the engine
performs). -/
structure StateDoc where
  projects : List (String × ProjRecord)
deriving DecidableEq, Repr

/-- Model of `state["projects"].get(project_name, dict())`. -/
def lookupProject (st : StateDoc) (name : String) : ProjRecord :=
  ((st.projects.find? fun pr => pr.1 == name).map Prod.snd).getD {}

/-- Model of the assignment `state["projects"][project_name] = project_state`. -/
def setProject (st : StateDoc) (name : String) (rec1 : ProjRecord) : StateDoc :=
  ⟨(name, rec1) :: st.projects.filter fun pr => pr.1 != name⟩

/-- The repository metadata `ensure_repo` returns (the fields the engine
reads). -/
structure RepoInfo where
  fullName : String
  htmlUrl : String
deriving DecidableEq, Repr

/-- The summary `run_pipeline` returns (and writes to
`pipeline_output.json`). -/
structure PipelineOutputs where
  mode : String
  projectName : String
  repoName : Option String := none
  repoFullName : Option String := none
  repoHtmlUrl : Option String := none
deriving DecidableEq, Repr

/-- Observable events of one `run_pipeline` call. -/
inductive EngineEvent where
  | lockAcquired
  | secretAdded
  | secretFailureLogged (repoName : String)
  | stateSaved (st : StateDoc)
  | released
  | releaseErrorLogged
deriving DecidableEq, Repr

/-- The environment of one `run_pipeline` call: configuration, environment
variables, and the outcome each external collaborator would produce if
invoked.  An `Except.error` means that call raises. -/
structure EngineEnv where
  mode : String
  projectName : Option String
  observabilityEnabled : Bool
  acquireResult : Bool
  loadResult : Except String StateDoc
  ensureRepoResult : Except String RepoInfo
  pushTemplatesResult : Except String Unit
  phoenixUrl : Option String
  addSecretResult : Except String Unit
  uploadWorkspaceResult : Except String Unit
  saveResult : Except String Unit
  writeOutputResult : Except String Unit
  releaseDeleteResult : Except String Unit

/-- The body of the `try:` block of `run_pipeline` (engine lines 62-167):
load state, compute the repo name, ensure the repo, push templates, run the
workflow sanity check (log-only), best-effort secret injection, upload the
generated `workspace.yaml`, persist state, write the output file and return
the outputs.  The first uncaught exception aborts the body; the secret step's
exception is caught and logged (lines 109-116). -/
def runBody (env : EngineEnv) (projectName : String) :
    Except String PipelineOutputs × List EngineEvent :=
  match env.loadResult with
  | .error e => (.error e, [])
  | .ok st0 =>
    let projectState := lookupProject st0 projectName
    let repoName := chooseRepoName projectState.repoName (derivedRepoName projectName)
    match env.ensureRepoResult with
    | .error e => (.error e, [])
    | .ok repoInfo =>
      match env.pushTemplatesResult with
      | .error e => (.error e, [])
      | .ok _ =>
        let secretEvents :=
          match env.phoenixUrl with
          | some _ =>
            match env.addSecretResult with
            | .ok _ => [EngineEvent.secretAdded]
            | .error _ => [EngineEvent.secretFailureLogged repoName]
          | none => []
        match env.uploadWorkspaceResult with
        | .error e => (.error e, secretEvents)
        | .ok _ =>
          let newRec : ProjRecord :=
            { projectState with
                projectName := some projectName
                repoName := some repoName
                repoFullName := some repoInfo.fullName
                repoHtmlUrl := some repoInfo.htmlUrl
                observabilityEnabled := some env.observabilityEnabled }
          let st1 := setProject st0 projectName newRec
          match env.saveResult with
          | .error e => (.error e, secretEvents)
          | .ok _ =>
            match env.writeOutputResult with
            | .error e => (.error e, secretEvents ++ [.stateSaved st1])
            | .ok _ =>
              (.ok ⟨"generator", projectName, some repoName, some repoInfo.fullName,
                  some repoInfo.htmlUrl⟩,
                secretEvents ++ [.stateSaved st1])

/-- Model of `run_pipeline` (engine lines 26-173).  Before the lock: config load
(external), the `LLMOPS_PROJECT_NAME` check (unset or empty raises), the
mode check (non-generator modes return early).  In generator mode the lock
is acquired (`False` raises), the body runs inside `try:`, and the
`finally:` block always calls `lock_backend.release()`, whose own exception
is caught and logged. -/
def runPipeline (env : EngineEnv) : Except String PipelineOutputs × List EngineEvent :=
  match env.projectName with
  | none => (.error ("LLMOPS_PROJECT_NAME not provided from GitHub Action."), [])
  | some projectName =>
    if projectName = "" then
      (.error ("LLMOPS_PROJECT_NAME not provided from GitHub Action."), [])
    else if env.mode ≠ "generator" then
      match env.writeOutputResult with
      | .error e => (.error e, [])
      | .ok _ => (.ok ⟨env.mode, projectName, none, none, none⟩, [])
    else if env.acquireResult = false then
      (.error ("Unable to acquire generator lock; aborting."), [])
    else
      let body := runBody env projectName
      let releaseEvents :=
        match env.releaseDeleteResult with
        | .ok _ => [EngineEvent.released]
        | .error _ => [EngineEvent.released, EngineEvent.releaseErrorLogged]
      (body.1, EngineEvent.lockAcquired :: body.2 ++ releaseEvents)

/-- A concrete fully-successful environment except for the secret step, used
to instantiate the orchestrator theorems. -/
def sampleEnv : EngineEnv where
  mode := "generator"
  projectName := some ("Acme Corp")
  observabilityEnabled := true
  acquireResult := true
  loadResult := .ok ⟨[]⟩
  ensureRepoResult := .ok ⟨"owner/Infoservices-acme-corp-llm", "https://example.test/repo"⟩
  pushTemplatesResult := .ok ()
  phoenixUrl := some ("https://phoenix.example.test")
  addSecretResult := .error ("boom")
  uploadWorkspaceResult := .ok ()
  saveResult := .ok ()
  writeOutputResult := .ok ()
  releaseDeleteResult := .ok ()

theorem acquireLoop_contended (lockId : String) (ttl deadline poll : Nat)
    (hpoll : 0 < poll) (l : Lease) (t : Nat)
    (hvalid : deadline + poll ≤ l.expiresAt + 1) (ht : t < deadline + poll) :
    (acquireLoop lockId ttl deadline poll hpoll (some l) t).acquired = false ∧
      (acquireLoop lockId ttl deadline poll hpoll (some l) t).table = some l ∧
      deadline ≤ (acquireLoop lockId ttl deadline poll hpoll (some l) t).finishTime ∧
      WellPaced poll (acquireLoop lockId ttl deadline poll hpoll (some l) t).trace := by
  rw [acquireLoop]
  have hlt : ¬ l.expiresAt < t := by omega
  simp only [condPut, if_neg hlt]
  by_cases h : deadline ≤ t
  · simp only [dif_pos h]
    exact ⟨trivial, trivial, h, trivial⟩
  · simp only [dif_neg h]
    have ih := acquireLoop_contended lockId ttl deadline poll hpoll l (t + poll) hvalid
      (by omega)
    exact ⟨ih.1, ih.2.1, ih.2.2.1, ⟨rfl, ih.2.2.2⟩⟩
termination_by deadline - t
decreasing_by omega

/-- C2: a single call to `DynamoLock.acquire` succeeds immediately — performs
the conditional write once and returns `True` at the call time, writing a
fresh lease with `expires_at = now + ttl_seconds` — if and only if no lease
record exists for the lock id, or the existing lease's `ExpiresAt` is strictly
below the current time (an expired lease is stealable by any caller). -/
theorem dynamo_acquire_immediate_iff (lockId : String) (ttl waitSeconds poll : Nat)
    (hpoll : 0 < poll) (table : LockTable) (t0 : Nat) :
    acquire lockId ttl waitSeconds poll hpoll table t0 =
        ⟨true, some ⟨lockId, t0 + ttl⟩, t0, [.attempt t0]⟩ ↔
      table = none ∨ ∃ l, table = some l ∧ l.expiresAt < t0 := by
  unfold acquire
  rw [acquireLoop]
  match table with
  | none =>
    simp [condPut]
  | some l =>
    simp only [condPut]
    by_cases hlt : l.expiresAt < t0
    · rw [if_pos hlt]
      exact ⟨fun _ => Or.inr ⟨l, rfl, hlt⟩, fun _ => rfl⟩
    · rw [if_neg hlt]
      constructor
      · intro h
        by_cases hd : t0 + waitSeconds ≤ t0
        · rw [dif_pos hd] at h
          exact absurd (congrArg AcquireResult.acquired h) (by simp)
        · rw [dif_neg hd] at h
          exact absurd (congrArg AcquireResult.trace h) (by simp)
      · rintro (h | ⟨l', hl', hlt'⟩)
        · exact absurd h (by simp)
        · rw [Option.some_inj] at hl'
          exact absurd (hl' ▸ hlt') hlt

/-- Witness for C2: acquiring with no existing lease at time 7 succeeds on the
first attempt. -/
theorem dynamo_acquire_immediate_iff_witness :
    acquire ("llmops-generator-lock") 120 60 5 (by norm_num) none 7 =
        ⟨true, some ⟨"llmops-generator-lock", 7 + 120⟩, 7, [.attempt 7]⟩ ↔
      (none : LockTable) = none ∨ ∃ l, (none : LockTable) = some l ∧ l.expiresAt < 7 :=
  dynamo_acquire_immediate_iff ("llmops-generator-lock") 120 60 5 (by norm_num) none 7

/-- C3: while another holder's lease is valid through the whole wait window,
`acquire` returns `false` without raising once the wait budget has elapsed,
leaves the other holder's lease in place, and every rejected conditional
write except the last is followed by exactly one `sleep poll_interval` before
the retry (`WellPaced`).  No exception is modelled on this path because the
only store failure under contention, `ConditionalCheckFailedException`, is
caught by the loop. -/
theorem dynamo_acquire_contended_times_out (lockId : String) (ttl waitSeconds poll : Nat)
    (hpoll : 0 < poll) (l : Lease) (t0 : Nat)
    (hvalid : t0 + waitSeconds + poll ≤ l.expiresAt + 1) :
    (acquire lockId ttl waitSeconds poll hpoll (some l) t0).acquired = false ∧
      (acquire lockId ttl waitSeconds poll hpoll (some l) t0).table = some l ∧
      t0 + waitSeconds ≤ (acquire lockId ttl waitSeconds poll hpoll (some l) t0).finishTime ∧
      WellPaced poll (acquire lockId ttl waitSeconds poll hpoll (some l) t0).trace :=
  acquireLoop_contended lockId ttl (t0 + waitSeconds) poll hpoll l t0 (by omega) (by omega)

/-- Witness for C3: a holder whose lease expires at 100 blocks a caller that
starts at time 0 with a 10-second budget and a 5-second poll interval. -/
theorem dynamo_acquire_contended_times_out_witness :
    (acquire ("llmops-generator-lock") 120 10 5 (by norm_num)
        (some ⟨"llmops-generator-lock", 100⟩) 0).acquired = false ∧
      (acquire ("llmops-generator-lock") 120 10 5 (by norm_num)
        (some ⟨"llmops-generator-lock", 100⟩) 0).table = some ⟨"llmops-generator-lock", 100⟩ ∧
      0 + 10 ≤ (acquire ("llmops-generator-lock") 120 10 5 (by norm_num)
        (some ⟨"llmops-generator-lock", 100⟩) 0).finishTime ∧
      WellPaced 5 (acquire ("llmops-generator-lock") 120 10 5 (by norm_num)
        (some ⟨"llmops-generator-lock", 100⟩) 0).trace :=
  dynamo_acquire_contended_times_out ("llmops-generator-lock") 120 10 5 (by norm_num)
    ⟨"llmops-generator-lock", 100⟩ 0 (by norm_num)

/-- C10: `DynamoLock.release` never propagates an exception to its caller,
whatever the backing store's delete does: a delete fault is caught, the fault
message is logged, and a second `release` in a row is also exception-free. -/
theorem dynamo_release_never_raises (del1 : LockTable → DeleteResult) (table : LockTable) :
    (releaseE del1 table).isOk = true ∧
      (∀ msg, del1 table = .err msg → releaseE del1 table = .ok (table, some msg)) ∧
      (∀ table' log1, releaseE del1 table = .ok (table', log1) →
        (releaseE del1 table').isOk = true) := by
  refine ⟨?_, ?_, ?_⟩
  · unfold releaseE
    cases del1 table <;> rfl
  · intro msg hmsg
    unfold releaseE
    rw [hmsg]
  · intro table' log1 _
    unfold releaseE
    cases del1 table' <;> rfl

/-- Witness for C10: releasing twice against honest DynamoDB delete semantics,
starting from a held lease. -/
theorem dynamo_release_never_raises_witness :
    (releaseE dynamoDelete (some ⟨"llmops-generator-lock", 50⟩)).isOk = true ∧
      (∀ msg, dynamoDelete (some ⟨"llmops-generator-lock", 50⟩) = .err msg →
        releaseE dynamoDelete (some ⟨"llmops-generator-lock", 50⟩) =
          .ok (some ⟨"llmops-generator-lock", 50⟩, some msg)) ∧
      (∀ table' log1,
        releaseE dynamoDelete (some ⟨"llmops-generator-lock", 50⟩) = .ok (table', log1) →
        (releaseE dynamoDelete table').isOk = true) :=
  dynamo_release_never_raises dynamoDelete (some ⟨"llmops-generator-lock", 50⟩)

/-- Counterexample to C5 as stated: a stored blob that fails to parse as JSON
makes `S3StateBackend.load_state` raise (`json.loads` is outside the
`except ClientError` net), instead of returning the empty document. -/
theorem s3_load_state_raises_on_bad_json :
    s3LoadState (.ok ("not json")) tinyParse =
      .error ("json.loads raised (not a ClientError, so uncaught)") := by
  rfl

/-- C5 (amended): both backends return the empty document when nothing is
stored, and the local backend also returns the empty document (without
raising) when the stored blob fails to parse; the S3 backend, however,
propagates the parse error — it returns the empty document on unparseable
content only in the `empty body` and `parsed-but-not-a-dict` cases. -/
theorem load_state_empty_and_parse_behaviour (parse : String → Option Json)
    (body : String) (hparse : parse body = none) :
    s3LoadState (.clientError ("NoSuchKey")) parse = .ok (Json.obj []) ∧
      s3LoadState (.clientError ("NoSuchBucket")) parse = .ok (Json.obj []) ∧
      localLoadState none parse = .ok (Json.obj []) ∧
      localLoadState (some body) parse = .ok (Json.obj []) ∧
      (body ≠ "" →
        s3LoadState (.ok body) parse =
          .error ("json.loads raised (not a ClientError, so uncaught)")) := by
  refine ⟨by simp [s3LoadState], by simp [s3LoadState], rfl, ?_, ?_⟩
  · simp [localLoadState, hparse]
  · intro hbody
    simp [s3LoadState, hbody, hparse]

/-- Witness for amended C5, at the concrete parser and the blob `"not json"`. -/
theorem load_state_empty_and_parse_behaviour_witness :
    s3LoadState (.clientError ("NoSuchKey")) tinyParse = .ok (Json.obj []) ∧
      s3LoadState (.clientError ("NoSuchBucket")) tinyParse = .ok (Json.obj []) ∧
      localLoadState none tinyParse = .ok (Json.obj []) ∧
      localLoadState (some ("not json")) tinyParse = .ok (Json.obj []) ∧
      ("not json" ≠ "" →
        s3LoadState (.ok ("not json")) tinyParse =
          .error ("json.loads raised (not a ClientError, so uncaught)")) :=
  load_state_empty_and_parse_behaviour tinyParse ("not json") rfl

theorem walkDirs_eq_flatMap (pre : List String) (l : List (String × FsTree)) :
    walkDirs pre l = l.flatMap (walkDirStep pre) := by
  induction l with
  | nil => rfl
  | cons hd tl ih =>
    cases hd with
    | mk d sub => simp only [walkDirs, walkDirStep, List.flatMap_cons, ih]

/-- C7: for a local tree containing exactly `a.txt`, `sub/b.yaml`, `.git/x`
and `__pycache__/y.pyc`, the sync plan is exactly
`{a.txt, sub/b.yaml}` — whatever order the filesystem enumerates the
subdirectories in — because `.git` and `__pycache__` are pruned by exact
segment match against `EXCLUDE_PATH_FRAGMENTS`. -/
theorem sync_plan_exact_segments (dirs' : List (String × FsTree))
    (hperm : dirs'.Perm c7Dirs) :
    (walkTree [] (.node ["a.txt"] dirs')).Perm [["a.txt"], ["sub", "b.yaml"]] ∧
      ∀ p, p ∈ walkTree [] (.node ["a.txt"] dirs') ↔
        p = ["a.txt"] ∨ p = ["sub", "b.yaml"] := by
  have hbind : c7Dirs.flatMap (walkDirStep []) = [["sub", "b.yaml"]] := by rfl
  have hmain : (walkTree [] (.node ["a.txt"] dirs')).Perm [["a.txt"], ["sub", "b.yaml"]] := by
    rw [walkTree, walkDirs_eq_flatMap]
    have h2 := (hperm.flatMap_right (walkDirStep []))
    rw [hbind] at h2
    exact h2.append_left [["a.txt"]]
  exact ⟨hmain, fun p => by rw [hmain.mem_iff, List.mem_pair]⟩

/-- Witness for C7, at the fixed enumeration order. -/
theorem sync_plan_exact_segments_witness :
    (walkTree [] (.node ["a.txt"] c7Dirs)).Perm [["a.txt"], ["sub", "b.yaml"]] ∧
      ∀ p, p ∈ walkTree [] (.node ["a.txt"] c7Dirs) ↔
        p = ["a.txt"] ∨ p = ["sub", "b.yaml"] :=
  sync_plan_exact_segments c7Dirs (List.Perm.refl c7Dirs)

theorem shaOf_ne_empty (c : String) : shaOf c ≠ "" := by
  intro h
  have h2 := congrArg String.length h
  rw [shaOf, String.length_append] at h2
  have h3 : ("sha-" : String).length = 4 := rfl
  have h4 : ("" : String).length = 0 := rfl
  omega

theorem hasPath_iff (repo : Remote) (q : String) :
    hasPath repo q ↔ ∃ pr ∈ repo, pr.1 = q := by
  simp [hasPath, lookupFile, List.find?_isSome, beq_iff_eq]

theorem lookupFile_mem {repo : Remote} {p : String} {f : RemoteFile}
    (h : lookupFile repo p = some f) : (p, f) ∈ repo := by
  simp only [lookupFile, Option.map_eq_some'] at h
  obtain ⟨pr, hfind, hsnd⟩ := h
  have hmem := List.mem_of_find?_eq_some hfind
  have hfst := List.find?_some hfind
  rw [beq_iff_eq] at hfst
  obtain ⟨a, b⟩ := pr
  cases hfst
  cases hsnd
  exact hmem

theorem goodRepo_setFile {repo : Remote} (hgood : goodRepo repo) (path : String)
    {f : RemoteFile} (hf : f.sha ≠ "") : goodRepo (setFile repo path f) := by
  intro pr hpr
  rcases List.mem_cons.mp hpr with h | h
  · rw [h]; exact hf
  · exact hgood pr (List.mem_filter.mp h).1

theorem hasPath_setFile_self (repo : Remote) (path : String) (f : RemoteFile) :
    hasPath (setFile repo path f) path := by
  rw [hasPath_iff]
  exact ⟨(path, f), List.mem_cons_self _ _, rfl⟩

theorem hasPath_setFile_of_hasPath {repo : Remote} {q : String} (path : String)
    (f : RemoteFile) (h : hasPath repo q) : hasPath (setFile repo path f) q := by
  rw [hasPath_iff] at h ⊢
  obtain ⟨pr, hpr, hq⟩ := h
  by_cases hpq : pr.1 = path
  · exact ⟨(path, f), List.mem_cons_self _ _, by rw [← hq, hpq]⟩
  · refine ⟨pr, List.mem_cons_of_mem _ (List.mem_filter.mpr ⟨hpr, ?_⟩), hq⟩
    simpa using hpq

/-- The run invariant behind C4: from any good remote, a sync run succeeds,
keeps the remote good, grows its domain to cover the plan, sends one request
per plan entry, and every request whose path already existed when the run
started carries a non-empty version token. -/
theorem syncRun_ok (files : List (String × String)) (repo : Remote)
    (hgood : goodRepo repo) :
    ∃ repo' reqs, syncRun files repo = .ok (repo', reqs) ∧
      goodRepo repo' ∧
      (∀ q, hasPath repo q → hasPath repo' q) ∧
      (∀ pc ∈ files, hasPath repo' (Prod.fst pc)) ∧
      reqs.map UploadReq.path = files.map Prod.fst ∧
      (∀ req ∈ reqs, hasPath repo req.path → ∃ s, req.token = some s ∧ s ≠ "") := by
  induction files generalizing repo with
  | nil =>
    exact ⟨repo, [], rfl, hgood, fun _ h => h, by simp, rfl, by simp⟩
  | cons pc rest ih =>
    obtain ⟨p, c⟩ := pc
    have hstep : ∃ req repo1, uploadFile repo p c = (req, .ok repo1) ∧
        goodRepo repo1 ∧ (∀ q, hasPath repo q → hasPath repo1 q) ∧
        hasPath repo1 p ∧ req.path = p ∧
        (hasPath repo p → ∃ s, req.token = some s ∧ s ≠ "") := by
      unfold uploadFile
      cases hl : lookupFile repo p with
      | none =>
        refine ⟨⟨p, none⟩, setFile repo p ⟨shaOf c, c⟩, ?_, ?_, ?_, ?_, rfl, ?_⟩
        · simp [putFile, hl]
        · exact goodRepo_setFile hgood p (shaOf_ne_empty c)
        · exact fun q h => hasPath_setFile_of_hasPath p _ h
        · exact hasPath_setFile_self repo p _
        · intro hp
          exact absurd hp (by simp [hasPath, hl])
      | some f =>
        have hsha : f.sha ≠ "" := hgood (p, f) (lookupFile_mem hl)
        refine ⟨⟨p, some f.sha⟩, setFile repo p ⟨shaOf c, c⟩, ?_, ?_, ?_, ?_, rfl, ?_⟩
        · simp [putFile, hl, hsha]
        · exact goodRepo_setFile hgood p (shaOf_ne_empty c)
        · exact fun q h => hasPath_setFile_of_hasPath p _ h
        · exact hasPath_setFile_self repo p _
        · exact fun _ => ⟨f.sha, rfl, hsha⟩
    obtain ⟨req, repo1, hup, hgood1, hmono1, hp1, hreqp, htok⟩ := hstep
    obtain ⟨repo', reqs, hrun, hgood', hmono', hcover, hpaths, htoks⟩ := ih repo1 hgood1
    refine ⟨repo', req :: reqs, ?_, hgood', fun q h => hmono' q (hmono1 q h), ?_, ?_, ?_⟩
    · simp only [syncRun, hup, hrun]
    · intro pc hpc
      rcases List.mem_cons.mp hpc with h | h
      · rw [h]; exact hmono' p hp1
      · exact hcover pc h
    · simp [hpaths, hreqp]
    · intro r hr hhas
      rcases List.mem_cons.mp hr with h | h
      · rw [h] at hhas ⊢
        rw [hreqp] at hhas
        exact htok hhas
      · exact htoks r h (hmono1 r.path hhas)

/-- C4: re-running sync with unchanged local content: the first run (against
an empty remote) and the second run both complete without error, and every
upload of the second run carries the non-empty version token obtained from
the remote existence check (the update path). -/
theorem sync_rerun_all_update_path (files : List (String × String)) :
    ∃ repo1 reqs1 repo2 reqs2,
      syncRun files [] = .ok (repo1, reqs1) ∧
      syncRun files repo1 = .ok (repo2, reqs2) ∧
      ∀ req ∈ reqs2, ∃ s, req.token = some s ∧ s ≠ "" := by
  obtain ⟨repo1, reqs1, hrun1, hgood1, _, hcover1, _, _⟩ :=
    syncRun_ok files [] (by intro pr hpr; cases hpr)
  obtain ⟨repo2, reqs2, hrun2, _, _, _, hpaths2, htoks2⟩ := syncRun_ok files repo1 hgood1
  refine ⟨repo1, reqs1, repo2, reqs2, hrun1, hrun2, ?_⟩
  intro req hreq
  have hmem : req.path ∈ files.map Prod.fst := by
    rw [← hpaths2]
    exact List.mem_map_of_mem UploadReq.path hreq
  obtain ⟨pc, hpc, hpath⟩ := List.mem_map.mp hmem
  exact htoks2 req hreq (hpath ▸ hcover1 pc hpc)

/-- C6 evaluated at the failing input (code_bug): a PUT that fails with a
transient HTTP 500 makes `upload_file` raise immediately out of `_request`
after a single attempt — the loop never reaches its retry or its sleep, even
though its own comment says "Try with a couple retries for transient
issues".  Only a sub-400 non-(200/201) status would be retried. -/
theorem upload_retry_aborts_on_first_transient_failure :
    uploadPut (fun _ => ⟨500, "Internal Server Error", false⟩) =
        .error ("GitHub API error 500: Internal Server Error", 1) ∧
      uploadPut (fun _ => ⟨202, "Accepted", false⟩) =
        .ok (⟨202, "Accepted", false⟩, 3) := by
  constructor <;> rfl

/-! ## Properties of the orchestrator -/

theorem derivedRepoName_ne_empty (p : String) : derivedRepoName p ≠ "" := by
  intro h
  have h2 := congrArg String.length h
  rw [derivedRepoName, String.length_append, String.length_append] at h2
  have h3 : ("Infoservices-" : String).length = 13 := rfl
  have h4 : ("-llm" : String).length = 4 := rfl
  have h5 : ("" : String).length = 0 := rfl
  omega

theorem chooseRepoName_ne_empty (r : Option String) (d : String) (hd : d ≠ "") :
    chooseRepoName r d ≠ "" := by
  cases r with
  | none => exact hd
  | some s =>
    show (if s = "" then d else s) ≠ ""
    by_cases hs : s = ""
    · rw [if_pos hs]; exact hd
    · rw [if_neg hs]; exact hs

theorem chooseRepoName_recorded (n d : String) (hn : n ≠ "") :
    chooseRepoName (some n) d = n := by
  show (if n = "" then d else n) = n
  rw [if_neg hn]

theorem chooseRepoName_derives_when_absent (d : String) :
    chooseRepoName none d = d := rfl

theorem lookupProject_setProject_self (st : StateDoc) (name : String) (r : ProjRecord) :
    lookupProject (setProject st name r) name = r := by
  unfold lookupProject setProject
  rw [List.find?_cons_of_pos _ (by simp)]
  rfl

/-- Evaluation of the `try:` body when every stage but the secret step
succeeds; the secret step's outcome only selects the logged events. -/
theorem runBody_success (env : EngineEnv) (p : String) (st0 : StateDoc) (ri : RepoInfo)
    (hload : env.loadResult = .ok st0) (hens : env.ensureRepoResult = .ok ri)
    (hpush : env.pushTemplatesResult = .ok ())
    (hws : env.uploadWorkspaceResult = .ok ()) (hsave : env.saveResult = .ok ())
    (hout : env.writeOutputResult = .ok ()) :
    runBody env p =
      (.ok ⟨"generator", p,
          some (chooseRepoName (lookupProject st0 p).repoName (derivedRepoName p)),
          some ri.fullName, some ri.htmlUrl⟩,
        (match env.phoenixUrl, env.addSecretResult with
          | some _, .ok _ => [EngineEvent.secretAdded]
          | some _, .error _ =>
            [EngineEvent.secretFailureLogged
              (chooseRepoName (lookupProject st0 p).repoName (derivedRepoName p))]
          | none, _ => []) ++
          [.stateSaved (setProject st0 p
            { projectName := some p
              repoName :=
                some (chooseRepoName (lookupProject st0 p).repoName (derivedRepoName p))
              repoFullName := some ri.fullName
              repoHtmlUrl := some ri.htmlUrl
              observabilityEnabled := some env.observabilityEnabled })]) := by
  unfold runBody
  rw [hload, hens, hpush, hws, hsave, hout]
  cases env.phoenixUrl <;> cases env.addSecretResult <;> rfl

/-- Evaluation of `run_pipeline` down to the `try/finally` skeleton in
generator mode with the lock acquired. -/
theorem runPipeline_generator (env : EngineEnv) (p : String)
    (hproj : env.projectName = some p) (hp : p ≠ "")
    (hmode : env.mode = "generator") (hacq : env.acquireResult = true) :
    runPipeline env =
      ((runBody env p).1,
        EngineEvent.lockAcquired :: (runBody env p).2 ++
          (match env.releaseDeleteResult with
            | .ok _ => [EngineEvent.released]
            | .error _ => [EngineEvent.released, EngineEvent.releaseErrorLogged])) := by
  unfold runPipeline
  rw [hproj]
  simp only [if_neg hp, hmode, ne_eq, not_true_eq_false, if_false, hacq]
  rfl

/-- C1: in generator mode, once `acquire` has returned `True`, `release` is
invoked on every exit path of the run — normal completion or an exception
raised in any stage of the `try:` body (state load, container ensure,
template sync, secret provisioning, workspace upload, state save, output
write). -/
theorem lock_released_on_every_exit_path (env : EngineEnv) (p : String)
    (hproj : env.projectName = some p) (hp : p ≠ "")
    (hmode : env.mode = "generator") (hacq : env.acquireResult = true) :
    EngineEvent.released ∈ (runPipeline env).2 := by
  rw [runPipeline_generator env p hproj hp hmode hacq]
  cases env.releaseDeleteResult <;> simp

/-- Witness for C1: the sample environment releases the lock. -/
theorem lock_released_on_every_exit_path_witness :
    EngineEvent.released ∈ (runPipeline sampleEnv).2 :=
  lock_released_on_every_exit_path sampleEnv ("Acme Corp") rfl (by decide) rfl rfl

/-- C9: when the secret-provisioning step raises, the exception is caught at
the orchestrator level, a failure naming the target repository is logged,
and the run still persists state, releases the lock, and returns a success
outcome. -/
theorem secret_failure_best_effort (env : EngineEnv) (p u e : String)
    (st0 : StateDoc) (ri : RepoInfo)
    (hproj : env.projectName = some p) (hp : p ≠ "")
    (hmode : env.mode = "generator") (hacq : env.acquireResult = true)
    (hload : env.loadResult = .ok st0) (hens : env.ensureRepoResult = .ok ri)
    (hpush : env.pushTemplatesResult = .ok ())
    (hurl : env.phoenixUrl = some u) (hsec : env.addSecretResult = .error e)
    (hws : env.uploadWorkspaceResult = .ok ()) (hsave : env.saveResult = .ok ())
    (hout : env.writeOutputResult = .ok ()) :
    (∃ outs, (runPipeline env).1 = .ok outs) ∧
      (∃ rn, EngineEvent.secretFailureLogged rn ∈ (runPipeline env).2) ∧
      (∃ st1, EngineEvent.stateSaved st1 ∈ (runPipeline env).2) ∧
      EngineEvent.released ∈ (runPipeline env).2 := by
  rw [runPipeline_generator env p hproj hp hmode hacq,
    runBody_success env p st0 ri hload hens hpush hws hsave hout, hurl, hsec]
  refine ⟨⟨_, rfl⟩,
    ⟨chooseRepoName (lookupProject st0 p).repoName (derivedRepoName p), ?_⟩,
    ⟨setProject st0 p
      { projectName := some p
        repoName := some (chooseRepoName (lookupProject st0 p).repoName (derivedRepoName p))
        repoFullName := some ri.fullName
        repoHtmlUrl := some ri.htmlUrl
        observabilityEnabled := some env.observabilityEnabled }, ?_⟩, ?_⟩ <;>
    cases env.releaseDeleteResult <;> simp

/-- Witness for C9: the sample environment, whose secret step raises. -/
theorem secret_failure_best_effort_witness :
    (∃ outs, (runPipeline sampleEnv).1 = .ok outs) ∧
      (∃ rn, EngineEvent.secretFailureLogged rn ∈ (runPipeline sampleEnv).2) ∧
      (∃ st1, EngineEvent.stateSaved st1 ∈ (runPipeline sampleEnv).2) ∧
      EngineEvent.released ∈ (runPipeline sampleEnv).2 :=
  secret_failure_best_effort sampleEnv ("Acme Corp") ("https://phoenix.example.test") ("boom")
    ⟨[]⟩ ⟨"owner/Infoservices-acme-corp-llm", "https://example.test/repo"⟩
    rfl (by decide) rfl rfl rfl rfl rfl rfl rfl rfl rfl rfl

/-- C8: a successful generator run persists a non-empty repository name for
its project; `chooseRepoName` reuses a truthy recorded name verbatim whatever
derivation rule it is offered, and derives only when no name is recorded; in
particular a second `run_pipeline` that loads the saved state computes
exactly the persisted name. -/
theorem repo_name_stable_across_runs (env1 : EngineEnv) (p : String)
    (st0 : StateDoc) (ri1 : RepoInfo)
    (hproj : env1.projectName = some p) (hp : p ≠ "")
    (hmode : env1.mode = "generator") (hacq : env1.acquireResult = true)
    (hload : env1.loadResult = .ok st0) (hens : env1.ensureRepoResult = .ok ri1)
    (hpush : env1.pushTemplatesResult = .ok ())
    (hws : env1.uploadWorkspaceResult = .ok ()) (hsave : env1.saveResult = .ok ())
    (hout : env1.writeOutputResult = .ok ()) :
    ∃ outs1 st1 n,
      (runPipeline env1).1 = .ok outs1 ∧
      EngineEvent.stateSaved st1 ∈ (runPipeline env1).2 ∧
      outs1.repoName = some n ∧ n ≠ "" ∧
      (lookupProject st1 p).repoName = some n ∧
      (∀ derived2, chooseRepoName (some n) derived2 = n) ∧
      (∀ derived2, chooseRepoName none derived2 = derived2) ∧
      (∀ env2 ri2, env2.projectName = some p → env2.mode = "generator" →
        env2.acquireResult = true → env2.loadResult = .ok st1 →
        env2.ensureRepoResult = .ok ri2 → env2.pushTemplatesResult = .ok () →
        env2.uploadWorkspaceResult = .ok () → env2.saveResult = .ok () →
        env2.writeOutputResult = .ok () →
        ∃ outs2, (runPipeline env2).1 = .ok outs2 ∧ outs2.repoName = some n) := by
  have hn : chooseRepoName (lookupProject st0 p).repoName (derivedRepoName p) ≠ "" :=
    chooseRepoName_ne_empty _ _ (derivedRepoName_ne_empty p)
  rw [runPipeline_generator env1 p hproj hp hmode hacq,
    runBody_success env1 p st0 ri1 hload hens hpush hws hsave hout]
  refine ⟨⟨"generator", p,
      some (chooseRepoName (lookupProject st0 p).repoName (derivedRepoName p)),
      some ri1.fullName, some ri1.htmlUrl⟩,
    setProject st0 p
      { projectName := some p
        repoName := some (chooseRepoName (lookupProject st0 p).repoName (derivedRepoName p))
        repoFullName := some ri1.fullName
        repoHtmlUrl := some ri1.htmlUrl
        observabilityEnabled := some env1.observabilityEnabled },
    chooseRepoName (lookupProject st0 p).repoName (derivedRepoName p),
    rfl, ?_, rfl, hn, ?_, ?_, chooseRepoName_derives_when_absent, ?_⟩
  · cases env1.phoenixUrl <;> cases env1.addSecretResult <;>
      cases env1.releaseDeleteResult <;> simp
  · rw [lookupProject_setProject_self]
  · intro derived2
    exact chooseRepoName_recorded _ derived2 hn
  · intro env2 ri2 hproj2 hmode2 hacq2 hload2 hens2 hpush2 hws2 hsave2 hout2
    rw [runPipeline_generator env2 p hproj2 hp hmode2 hacq2,
      runBody_success env2 p _ ri2 hload2 hens2 hpush2 hws2 hsave2 hout2]
    refine ⟨_, rfl, ?_⟩
    show some (chooseRepoName
        (lookupProject (setProject st0 p _) p).repoName (derivedRepoName p)) =
      some (chooseRepoName (lookupProject st0 p).repoName (derivedRepoName p))
    rw [lookupProject_setProject_self]
    exact congrArg some (chooseRepoName_recorded _ _ hn)

/-- Witness for C8: the sample environment run on an empty prior state. -/
theorem repo_name_stable_across_runs_witness :
    ∃ outs1 st1 n,
      (runPipeline sampleEnv).1 = .ok outs1 ∧
      EngineEvent.stateSaved st1 ∈ (runPipeline sampleEnv).2 ∧
      outs1.repoName = some n ∧ n ≠ "" ∧
      (lookupProject st1 ("Acme Corp")).repoName = some n ∧
      (∀ derived2, chooseRepoName (some n) derived2 = n) ∧
      (∀ derived2, chooseRepoName none derived2 = derived2) ∧
      (∀ env2 ri2, env2.projectName = some ("Acme Corp") → env2.mode = "generator" →
        env2.acquireResult = true → env2.loadResult = .ok st1 →
        env2.ensureRepoResult = .ok ri2 → env2.pushTemplatesResult = .ok () →
        env2.uploadWorkspaceResult = .ok () → env2.saveResult = .ok () →
        env2.writeOutputResult = .ok () →
        ∃ outs2, (runPipeline env2).1 = .ok outs2 ∧ outs2.repoName = some n) :=
  repo_name_stable_across_runs sampleEnv ("Acme Corp") ⟨[]⟩
    ⟨"owner/Infoservices-acme-corp-llm", "https://example.test/repo"⟩
    rfl (by decide) rfl rfl rfl rfl rfl rfl rfl rfl

end LlmOps

